import Mathlib

/-!
Verification development for the libby-lists-checker repository.

Strings from the Python source are modelled as `List Char` (the ASCII
fragment: `str.lower`, the regex classes `\w`/`\s`/`\d` and
`urllib.parse.quote` are modelled at ASCII level, which covers every
input exercised here).  Machine integers do not overflow in the source
(counts are small), so `Nat`/`Int` model Python ints directly.
Fallible network fetches are modelled as `Except Unit (List Char)`
arguments: `.ok body` is a 2xx response body, `.error ()` is a
transport failure (`requests.RequestException`, including the
`raise_for_status` path).
-/

/-- Python regex class `\s` (ASCII): space, tab, newline, carriage
return, vertical tab, form feed. -/
def isPySpace (c : Char) : Bool :=
  c = ' ' || c = '\t' || c = '\n' || c = '\r' || c = '\x0b' || c = '\x0c'

/-- Python regex class `\w` (ASCII fragment): letters, digits, underscore. -/
def isWordChar (c : Char) : Bool :=
  c.isAlphanum || c = '_'

/-- Python `' '.join(s.split())`: split on whitespace runs, drop empty
pieces, rejoin with single spaces.  This is line 23 of
refine_audiobooks.py and also the `re.sub(r'\s+', ' ', s).strip()` step
of clean_html_description in check_availability.py (the two are
extensionally the same operation). -/
def collapseWs (s : List Char) : List Char :=
  List.intercalate [' '] ((s.splitOnP isPySpace).filter (fun w => ¬ w.isEmpty))

/-- normalize_name from refine_audiobooks.py lines 13-24: lowercase,
remove characters outside `[\w\s]`, collapse whitespace. -/
def normalize_name (name : List Char) : List Char :=
  collapseWs ((name.map Char.toLower).filter (fun c => isWordChar c || isPySpace c))

/-!
Embedding of `difflib.SequenceMatcher(None, a, b).ratio()` from the
CPython standard library, which names_match (refine_audiobooks.py
line 52) calls on the two normalized names.

With `isjunk=None` the junk set is empty, so the two junk-extension
while loops of `find_longest_match` never fire and `isbjunk` is
constantly false in the non-junk extension loops.  The autojunk
heuristic still applies: when `len(b) >= 200`, elements of `b`
occurring more than `len(b)//100 + 1` times are dropped from the `b2j`
index (they are skipped by the dynamic programming but still compared
by the extension loops).  The popular-element set is computed once from
the full second string and shared by every recursive call of
`get_matching_blocks`, which is why it is threaded as a parameter `P`
below while the recursion slices the strings themselves.
-/

/-- Result triple of difflib's find_longest_match: the block
`a[besti : besti+bestsize] = b[bestj : bestj+bestsize]`. -/
structure FLM where
  besti : Nat
  bestj : Nat
  bestsize : Nat
deriving Repr, DecidableEq

/-- Characters of `b` removed from the `b2j` index by the autojunk
heuristic of `SequenceMatcher.__chain_b`. -/
def popularChars (b : List Char) : List Char :=
  if b.length < 200 then []
  else b.dedup.filter (fun c => b.length / 100 + 1 < b.count c)

/-- One row of the find_longest_match dynamic programming: entry `j` is
the length of the common run ending at `(i, j)`, which is
`prev[j-1] + 1` when `b[j] = a[i]` (and `b[j]` is not autojunked), else
0. Called with the previous row shifted right by one (a 0 consed on),
so the head of `prev` is entry `j-1` of the previous row. -/
def flmRow (c : Char) (P : List Char) : List Char → List Nat → List Nat
  | [], _ => []
  | x :: xs, prev =>
    (if x = c && !(P.contains x) then prev.headD 0 + 1 else 0) ::
      flmRow c P xs (prev.drop 1)

/-- Scan row `i` left to right, replacing the best block whenever a run
strictly longer than the current best ends here (difflib's
`if k > bestsize` update, which keeps the first maximum in scan order). -/
def flmScanRow (i : Nat) : Nat → List Nat → FLM → FLM
  | _, [], s => s
  | j, k :: ks, s =>
    flmScanRow i (j + 1) ks (if s.bestsize < k then ⟨i + 1 - k, j + 1 - k, k⟩ else s)

/-- The `for i in range(alo, ahi)` loop of find_longest_match. -/
def flmAux (P b : List Char) : List Char → Nat → List Nat → FLM → FLM
  | [], _, _, s => s
  | c :: as, i, prev, s =>
    let row := flmRow c P b (0 :: prev)
    flmAux P b as (i + 1) row (flmScanRow i 0 row s)

/-- The first extension while loop: grow the block backwards while the
preceding characters are equal (`isbjunk` is constantly false, see
above).  `besti` itself bounds the number of iterations and is used as
fuel. -/
def flmExtendBack (a b : List Char) : Nat → FLM → FLM
  | 0, s => s
  | n + 1, s =>
    match a[s.besti - 1]?, b[s.bestj - 1]? with
    | some x, some y =>
      if 0 < s.besti && 0 < s.bestj && x = y then
        flmExtendBack a b n ⟨s.besti - 1, s.bestj - 1, s.bestsize + 1⟩
      else s
    | _, _ => s

/-- The second extension while loop: grow the block forwards while the
following characters are equal.  `a.length` bounds the iterations. -/
def flmExtendFwd (a b : List Char) : Nat → FLM → FLM
  | 0, s => s
  | n + 1, s =>
    match a[s.besti + s.bestsize]?, b[s.bestj + s.bestsize]? with
    | some x, some y =>
      if x = y then flmExtendFwd a b n ⟨s.besti, s.bestj, s.bestsize + 1⟩ else s
    | _, _ => s

/-- difflib's find_longest_match restricted to a slice pair, with the
autojunk set `P` of the full second string. -/
def find_longest_match (P a b : List Char) : FLM :=
  let s := flmAux P b a 0 (List.replicate b.length 0) ⟨0, 0, 0⟩
  flmExtendFwd a b a.length (flmExtendBack a b s.besti s)

/-- Total size of all matching blocks (what
`sum(size for _, _, size in get_matching_blocks())` computes): recurse
left and right of the longest block.  Each recursive level shrinks the
combined slice length by at least 2 (a nonempty block is removed from
both sides), so fuel `a.length + b.length` always suffices. -/
def matchingSumAux (P : List Char) : Nat → List Char → List Char → Nat
  | 0, _, _ => 0
  | fuel + 1, a, b =>
    let s := find_longest_match P a b
    if s.bestsize = 0 then 0
    else
      s.bestsize
        + matchingSumAux P fuel (a.take s.besti) (b.take s.bestj)
        + matchingSumAux P fuel (a.drop (s.besti + s.bestsize)) (b.drop (s.bestj + s.bestsize))

/-- Total matched element count of `SequenceMatcher(None, a, b)`. -/
def matchingSum (a b : List Char) : Nat :=
  matchingSumAux (popularChars b) (a.length + b.length) a b

/-- The comparison `SequenceMatcher(None, x, y).ratio() >= 0.85` for the
default threshold of names_match, made exact: the ratio is
`2*M/(len x + len y)` (and 1.0 for two empty strings), so the
comparison is the rational inequality `40*M ≥ 17*(len x + len y)`,
which also holds in the degenerate empty case.  The float evaluation
agrees with the rational one: the into-float roundings of the exact
quotient and of the literal 0.85 preserve the order for every quotient
with the small denominators that arise here. -/
def ratioGeDefault (x y : List Char) : Bool :=
  decide (17 * (x.length + y.length) ≤ 40 * matchingSum x y)

/-- Python substring test `sub in s`: some contiguous slice of `s`
equals `sub` (true for the empty `sub`). -/
def containsSub (sub s : List Char) : Bool :=
  (List.range (s.length + 1)).any (fun i => sub.isPrefixOf (s.drop i))

/-- names_match from refine_audiobooks.py lines 27-53, at the default
threshold 0.85: normalize both names, then exact equality, then
substring containment either way (Python `in`), then the
SequenceMatcher ratio test. -/
def names_match (searched_author book_author : List Char) : Bool :=
  let search_norm := normalize_name searched_author
  let book_norm := normalize_name book_author
  if search_norm = book_norm then true
  else if containsSub search_norm book_norm || containsSub book_norm search_norm then true
  else ratioGeDefault search_norm book_norm

/-!
Data model of the search/refine artifacts.  A book record is the
dictionary built by search_audiobooks.py lines 72-78; an author entry
is the per-author value of the search-results mapping (`count`,
`books`, `url`); the refined entry additionally carries
`original_count` and `filtered_count` (refine_audiobooks.py
lines 93-99, where `filtered_count` is a Python int and can go
negative, hence `Int`).
-/

structure Book where
  title : List Char
  author : List Char
  id : List Char
  available : Bool
  formats : List (List Char)
deriving Repr, DecidableEq

structure AuthorData where
  count : Nat
  books : List Book
  url : List Char
deriving Repr, DecidableEq

structure RefinedData where
  count : Nat
  books : List Book
  url : List Char
  original_count : Nat
  filtered_count : Int
deriving Repr, DecidableEq

/-- The body of the per-author loop of refine_results
(refine_audiobooks.py lines 78-99): filter the books through
names_match against the searched author and record the counts. -/
def refine_entry (searched_author : List Char) (d : AuthorData) : RefinedData :=
  let matching_books := d.books.filter (fun book => names_match searched_author book.author)
  { count := matching_books.length
    books := matching_books
    url := d.url
    original_count := d.count
    filtered_count := (d.count : Int) - matching_books.length }

/-- refine_results over the whole artifact, an insertion-ordered
mapping from searched author to its entry. -/
def refine_results (results : List (List Char × AuthorData)) : List (List Char × RefinedData) :=
  results.map (fun p => (p.1, refine_entry p.1 p.2))

/-- The clean projection written by save_refined_results
(refine_audiobooks.py lines 147-153): keep `count`, `books`, `url`,
drop the audit fields. -/
def save_clean (r : RefinedData) : AuthorData :=
  { count := r.count, books := r.books, url := r.url }

/-!
Embedding of check_availability.py.  The regex searches are modelled
precisely at the level the patterns demand: leftmost match, greedy or
lazy repetition as written.  Python stdlib helpers called by the source
(`codecs` unicode_escape decoding, `html.unescape`) are modelled on the
escape forms and character references that occur in catalog pages; the
byte-level mangling of non-ASCII text by `.encode().decode('unicode_escape')`
and the full HTML5 named-reference table are outside the modelled
fragment and unused by every property below.
-/

/-- Numeric value of a decimal digit run. -/
def digitsToNat (ds : List Char) : Nat :=
  ds.foldl (fun n c => 10 * n + (c.toNat - 48)) 0

/-- Hexadecimal digit test (regex class `[0-9a-fA-F]` and the Python
escape-decoder digit set). -/
def isHexDigit (c : Char) : Bool :=
  c.isDigit || ('a' ≤ c && c ≤ 'f') || ('A' ≤ c && c ≤ 'F')

/-- Numeric value of a hexadecimal digit run. -/
def hexToNat (ds : List Char) : Nat :=
  ds.foldl
    (fun n c =>
      16 * n +
        (if c.isDigit then c.toNat - 48
         else if 'a' ≤ c ∧ c ≤ 'f' then c.toNat - 87
         else c.toNat - 55))
    0

/-- Leftmost match of the regex `LIT(\d+)`: scan for the first position
where the literal occurs immediately followed by at least one digit,
and return the maximal digit run there (used for the patterns at
check_availability.py lines 47-48). -/
def searchIntField (lit : List Char) : List Char → Option Nat
  | [] => none
  | c :: rest =>
    if lit.isPrefixOf (c :: rest) then
      let ds := ((c :: rest).drop lit.length).takeWhile Char.isDigit
      if ds.isEmpty then searchIntField lit rest
      else some (digitsToNat ds)
    else searchIntField lit rest

/-- Leftmost match of the regex `LIT(true|false)`
(check_availability.py line 78). -/
def searchBoolField (lit : List Char) : List Char → Option Bool
  | [] => none
  | c :: rest =>
    if lit.isPrefixOf (c :: rest) then
      let after := (c :: rest).drop lit.length
      if ("true".toList).isPrefixOf after then some true
      else if ("false".toList).isPrefixOf after then some false
      else searchBoolField lit rest
    else searchBoolField lit rest

/-- Python `.encode().decode('unicode_escape')` on the ASCII fragment:
standard backslash escapes, `\xHH`, `\uHHHH`, octal digit escapes and
backslash-newline line continuation; an unrecognized escape keeps both
characters, as the codec does.  Every step consumes at least one input
character, so the fuel passed by unicodeUnescape (the input length)
never runs out; fuel-based structural recursion keeps the function
kernel-reducible. -/
def unicodeUnescapeAux : Nat → List Char → List Char
  | 0, l => l
  | _ + 1, [] => []
  | _ + 1, ['\\'] => ['\\']
  | fuel + 1, '\\' :: c :: rs =>
    if c = 'n' then '\n' :: unicodeUnescapeAux fuel rs
    else if c = 't' then '\t' :: unicodeUnescapeAux fuel rs
    else if c = 'r' then '\r' :: unicodeUnescapeAux fuel rs
    else if c = '\\' then '\\' :: unicodeUnescapeAux fuel rs
    else if c = '\'' then '\'' :: unicodeUnescapeAux fuel rs
    else if c = '"' then '"' :: unicodeUnescapeAux fuel rs
    else if c = 'a' then '\x07' :: unicodeUnescapeAux fuel rs
    else if c = 'b' then '\x08' :: unicodeUnescapeAux fuel rs
    else if c = 'f' then '\x0c' :: unicodeUnescapeAux fuel rs
    else if c = 'v' then '\x0b' :: unicodeUnescapeAux fuel rs
    else if c = '\n' then unicodeUnescapeAux fuel rs
    else if c = 'x' then
      let h := rs.take 2
      if h.length = 2 ∧ h.all isHexDigit then
        Char.ofNat (hexToNat h) :: unicodeUnescapeAux fuel (rs.drop 2)
      else '\\' :: c :: unicodeUnescapeAux fuel rs
    else if c = 'u' then
      let h := rs.take 4
      if h.length = 4 ∧ h.all isHexDigit then
        Char.ofNat (hexToNat h) :: unicodeUnescapeAux fuel (rs.drop 4)
      else '\\' :: c :: unicodeUnescapeAux fuel rs
    else if '0' ≤ c ∧ c ≤ '7' then
      let o := rs.takeWhile (fun d => '0' ≤ d ∧ d ≤ '7') |>.take 2
      Char.ofNat ((c :: o).foldl (fun n d => 8 * n + (d.toNat - 48)) 0) ::
        unicodeUnescapeAux fuel (rs.drop o.length)
    else '\\' :: c :: unicodeUnescapeAux fuel rs
  | fuel + 1, c :: rest => c :: unicodeUnescapeAux fuel rest

/-- unicode_escape decoding of a whole string (see unicodeUnescapeAux). -/
def unicodeUnescape (s : List Char) : List Char :=
  unicodeUnescapeAux s.length s

/-- Decode one HTML character reference right after an ampersand:
returns the character and the count of consumed input.  Numeric decimal
and hexadecimal references with optional semicolon, and the common
named references, per the stdlib html.unescape (whose full HTML5 table
is elided). -/
def charref (rest : List Char) : Option (Char × Nat) :=
  let semi : List Char → Nat := fun l => match l with | ';' :: _ => 1 | _ => 0
  match rest with
  | '#' :: 'x' :: rs =>
    let h := rs.takeWhile isHexDigit
    if h.isEmpty then none
    else some (Char.ofNat (hexToNat h), 2 + h.length + semi (rs.drop h.length))
  | '#' :: 'X' :: rs =>
    let h := rs.takeWhile isHexDigit
    if h.isEmpty then none
    else some (Char.ofNat (hexToNat h), 2 + h.length + semi (rs.drop h.length))
  | '#' :: rs =>
    let d := rs.takeWhile Char.isDigit
    if d.isEmpty then none
    else some (Char.ofNat (digitsToNat d), 1 + d.length + semi (rs.drop d.length))
  | _ =>
    if ("amp;".toList).isPrefixOf rest then some ('&', 4)
    else if ("lt;".toList).isPrefixOf rest then some ('<', 3)
    else if ("gt;".toList).isPrefixOf rest then some ('>', 3)
    else if ("quot;".toList).isPrefixOf rest then some ('"', 5)
    else if ("apos;".toList).isPrefixOf rest then some ('\'', 5)
    else if ("nbsp;".toList).isPrefixOf rest then some (Char.ofNat 160, 5)
    else none

/-- html.unescape over the body text (model, see charref).  Each step
consumes at least one character, so the fuel (the input length) passed
by htmlUnescape never runs out. -/
def htmlUnescapeAux : Nat → List Char → List Char
  | 0, l => l
  | _ + 1, [] => []
  | fuel + 1, c :: rest =>
    if c = '&' then
      match charref rest with
      | some p => p.1 :: htmlUnescapeAux fuel (rest.drop p.2)
      | none => '&' :: htmlUnescapeAux fuel rest
    else c :: htmlUnescapeAux fuel rest

/-- html.unescape of a whole string (see htmlUnescapeAux). -/
def htmlUnescape (s : List Char) : List Char :=
  htmlUnescapeAux s.length s

/-- Global substitution `re.sub(r'<[^>]+>', '', s)`: each leftmost
occurrence of a tag (an angle bracket, one or more non-close
characters, a close bracket) is deleted; a bracket opening no complete
tag is kept.  Each step consumes at least one character, so the fuel
(the input length) passed by stripTags never runs out. -/
def stripTagsAux : Nat → List Char → List Char
  | 0, l => l
  | _ + 1, [] => []
  | fuel + 1, c :: rest =>
    if c = '<' then
      let run := rest.takeWhile (fun x => x ≠ '>')
      if run.isEmpty then '<' :: stripTagsAux fuel rest
      else if rest[run.length]? = some '>' then stripTagsAux fuel (rest.drop (run.length + 1))
      else '<' :: stripTagsAux fuel rest
    else c :: stripTagsAux fuel rest

/-- Tag removal over a whole string (see stripTagsAux). -/
def stripTags (s : List Char) : List Char :=
  stripTagsAux s.length s

/-- clean_html_description from check_availability.py lines 16-24:
strip tags, decode entities, collapse whitespace and strip. -/
def clean_html_description (description : List Char) : List Char :=
  collapseWs (htmlUnescape (stripTags description))

/-- Literal part of the pattern at check_availability.py line 52. -/
def tcLit : List Char := "window.OverDrive.titleCollection".toList

/-- Index of the last closing brace of the non-semicolon run, at
position at least 1 (the group `.[^;]+.` needs one character between
the braces). -/
def lastCloseBrace (r : List Char) : Option Nat :=
  ((List.range r.length).filter (fun q => decide (1 ≤ q ∧ r[q]? = some '\x7d'))).getLast?

/-- Leftmost match of
`window\.OverDrive\.titleCollection\s*=\s*({[^;]+})`
(check_availability.py line 52), returning group 1 including its
braces: after the literal and optional whitespace around the equals
sign, an opening brace, then the greedy non-semicolon run backtracked
to its last closing brace. -/
def titleCollectionGroup : List Char → Option (List Char)
  | [] => none
  | c :: rest =>
    if tcLit.isPrefixOf (c :: rest) then
      let r1 := ((c :: rest).drop tcLit.length).dropWhile isPySpace
      match r1 with
      | '=' :: r2 =>
        match r2.dropWhile isPySpace with
        | '\x7b' :: r3 =>
          let run := r3.takeWhile (fun x => x ≠ ';')
          match lastCloseBrace run with
          | some q => some ('\x7b' :: run.take (q + 1))
          | none => titleCollectionGroup rest
        | _ => titleCollectionGroup rest
      | _ => titleCollectionGroup rest
    else titleCollectionGroup rest

/-- Literal `"publisher":` of the pattern at line 56. -/
def pubLit : List Char := "\"publisher\":".toList

/-- Literal `},"description":"` of the pattern at line 56. -/
def descLit : List Char := "\x7d,\"description\":\"".toList

/-- The lazy group `((?:[^"\\]|\\.)*?)"`: characters up to the first
unescaped double quote, where a backslash escapes the next character
(but not a newline, since DOTALL is off for this pattern); none when no
closing quote completes the match. -/
def scanLazyString : List Char → Option (List Char)
  | [] => none
  | c :: rest =>
    if c = '"' then some []
    else if c = '\\' then
      match rest with
      | [] => none
      | d :: rs =>
        if d = '\n' then none
        else (fun t => c :: d :: t) <$> scanLazyString rs
    else (fun t => c :: t) <$> scanLazyString rest

/-- Leftmost match of
`"publisher":[^}]+},"description":"((?:[^"\\]|\\.)*?)"` inside the
title-collection group (check_availability.py line 56): after the
publisher literal, a nonempty non-close-brace run (greedy, so it stops
exactly at the first closing brace), the description literal, and a
lazily matched JSON string body. -/
def searchPublisherDesc : List Char → Option (List Char)
  | [] => none
  | c :: rest =>
    if pubLit.isPrefixOf (c :: rest) then
      let after := (c :: rest).drop pubLit.length
      let run := after.takeWhile (fun x => x ≠ '\x7d')
      if run.isEmpty then searchPublisherDesc rest
      else if descLit.isPrefixOf (after.drop run.length) then
        match scanLazyString (after.drop (run.length + descLit.length)) with
        | some g => some g
        | none => searchPublisherDesc rest
      else searchPublisherDesc rest
    else searchPublisherDesc rest

/-- First index of `pat` as a sublist. -/
def findSubIdx (pat : List Char) : List Char → Option Nat
  | [] => if pat.isEmpty then some 0 else none
  | c :: rest =>
    if pat.isPrefixOf (c :: rest) then some 0
    else (fun n => n + 1) <$> findSubIdx pat rest

/-- Literal head of the article pattern at line 65. -/
def artLit : List Char := "<article class=\"TitleDetailsDescription-description".toList

/-- Closing literal of the article pattern. -/
def artClose : List Char := "</article>".toList

/-- Leftmost match of
`<article class="TitleDetailsDescription-description[^>]*>(.*?)</article>`
with DOTALL (check_availability.py line 65): after the literal, a
possibly empty non-close-bracket run, the bracket, then the shortest
body up to a closing article tag. -/
def articleBlock : List Char → Option (List Char)
  | [] => none
  | c :: rest =>
    if artLit.isPrefixOf (c :: rest) then
      let after := (c :: rest).drop artLit.length
      let run := after.takeWhile (fun x => x ≠ '>')
      match after.drop run.length with
      | '>' :: tail =>
        match findSubIdx artClose tail with
        | some i => some (tail.take i)
        | none => articleBlock rest
      | _ => articleBlock rest
    else articleBlock rest

/-- The candidate description from the embedded catalog object
(check_availability.py lines 51-61): group 1 of the title-collection
pattern searched for the publisher-scoped description, JSON-unescaped
and HTML-cleaned. -/
def findDescriptionCandidate (html : List Char) : Option (List Char) :=
  match titleCollectionGroup html with
  | none => none
  | some td =>
    match searchPublisherDesc td with
    | none => none
    | some g => some (clean_html_description (unicodeUnescape g))

/-- The category-code prefixes of check_availability.py line 64. -/
def startsWithBisac (d : List Char) : Bool :=
  ("FICTION ".toList).isPrefixOf d || ("Fiction /".toList).isPrefixOf d

/-- The test `not description or description.startswith('FICTION ') or
description.startswith('Fiction /')` of line 64 (a Python None or empty
string is falsy). -/
def descRejected : Option (List Char) → Bool
  | none => true
  | some s => s.isEmpty || startsWithBisac s

/-- The description-resolution chain of check_availability.py
lines 50-68: take the embedded-object candidate; when it is absent,
empty or category-code-like, try the article block, whose cleaned
content replaces the candidate only when the block is present. -/
def extract_description (html : List Char) : Option (List Char) :=
  let d := findDescriptionCandidate html
  if descRejected d then
    match articleBlock html with
    | some inner => some (clean_html_description inner)
    | none => d
  else d

/-- Search literal for the available-copies count (line 47). -/
def acLit : List Char := "\"availableCopies\":".toList

/-- Search literal for the owned-copies count (line 48). -/
def ocLit : List Char := "\"ownedCopies\":".toList

/-- Search literal for the availability flag (line 78). -/
def iaLit : List Char := "\"isAvailable\":".toList

/-- The successful-response part of fetch_availability
(check_availability.py lines 43-83): both copy counts present give
`(availableCopies > 0, availableCopies, ownedCopies, description)`;
otherwise the boolean flag (when present) with zero counts; otherwise
the all-absent result, always carrying whatever description resolved. -/
def fetch_availability_body (html : List Char) : Bool × Nat × Nat × Option (List Char) :=
  let description := extract_description html
  match searchIntField acLit html, searchIntField ocLit html with
  | some available_copies, some owned_copies =>
    (decide (0 < available_copies), available_copies, owned_copies, description)
  | _, _ =>
    match searchBoolField iaLit html with
    | some b => (b, 0, 0, description)
    | none => (false, 0, 0, description)

/-- fetch_availability (check_availability.py lines 27-87) over the
transport outcome of the detail-page fetch: a RequestException is
caught and yields the fully absent fragment (lines 85-87). -/
def fetch_availability (resp : Except Unit (List Char)) :
    Bool × Nat × Nat × Option (List Char) :=
  match resp with
  | .ok html => fetch_availability_body html
  | .error _ => (false, 0, 0, none)

/-- The dictionary appended at check_availability.py lines 132-141. -/
structure AvailRecord where
  title : List Char
  author : List Char
  id : List Char
  url : List Char
  available_copies : Nat
  owned_copies : Nat
  formats : List (List Char)
  description : Option (List Char)
deriving Repr, DecidableEq

/-- Detail-page URL of a catalog item (lines 37 and 136). -/
def mediaUrl (id : List Char) : List Char :=
  "https://westerncape.overdrive.com/media/".toList ++ id

/-- The guard `limit and checked >= limit` (lines 118 and 148): a None
or zero limit is falsy and never stops the run. -/
def limHit (limit : Option Nat) (checked : Nat) : Bool :=
  match limit with
  | none => false
  | some 0 => false
  | some n => decide (n ≤ checked)

/-- The inner book loop of check_all_books (check_availability.py
lines 117-146): for each book, stop when the limit is hit, otherwise
probe availability and append a record exactly when `is_available`
holds, counting every processed book.  Returns the grown record list
and the updated checked counter. -/
def checkBooksInner (pages : List Char → Except Unit (List Char))
    (limit : Option Nat) (author : List Char) :
    List Book → Nat → List AvailRecord → List AvailRecord × Nat
  | [], checked, acc => (acc, checked)
  | book :: restBooks, checked, acc =>
    if limHit limit checked then (acc, checked)
    else
      let r := fetch_availability (pages book.id)
      let acc' :=
        if r.1 then
          acc ++ [{ title := book.title, author := author, id := book.id,
                    url := mediaUrl book.id, available_copies := r.2.1,
                    owned_copies := r.2.2.1, formats := book.formats,
                    description := r.2.2.2 }]
        else acc
      checkBooksInner pages limit author restBooks (checked + 1) acc'

/-- The outer author loop of check_all_books (lines 113-149): authors
whose recorded count is zero are skipped, and after each author's books
the limit guard can break the whole run. -/
def checkAllAux (pages : List Char → Except Unit (List Char)) (limit : Option Nat) :
    List (List Char × AuthorData) → Nat → List AvailRecord → List AvailRecord
  | [], _, acc => acc
  | (author, ad) :: restAuthors, checked, acc =>
    if ad.count = 0 then checkAllAux pages limit restAuthors checked acc
    else
      let p := checkBooksInner pages limit author ad.books checked acc
      if limHit limit p.2 then p.1
      else checkAllAux pages limit restAuthors p.2 p.1

/-- check_all_books (check_availability.py lines 90-151), parametrized
by the transport outcome of each item fetch. -/
def check_all_books (pages : List Char → Except Unit (List Char))
    (books_data : List (List Char × AuthorData)) (limit : Option Nat) : List AvailRecord :=
  checkAllAux pages limit books_data 0 []

/-!
Embedding of the search side (search_audiobooks.py,
search_combined.py).  The HTML scraping of a successful search page
(BeautifulSoup plus the embedded title collection, lines 43-81 of
search_audiobooks.py) is abstracted as a `parsePage` collaborator
producing the reported count and record list; the transport contract
under verification does not depend on it.
-/

/-- Safe characters of `urllib.parse.quote` with the default
`safe='/'` (ASCII fragment): unreserved characters plus the slash. -/
def isUrlSafe (c : Char) : Bool :=
  c.isAlphanum || c = '_' || c = '.' || c = '-' || c = '~' || c = '/'

/-- Uppercase hexadecimal digit. -/
def hexDigitUpper (n : Nat) : Char :=
  if n < 10 then Char.ofNat (48 + n) else Char.ofNat (55 + n)

/-- urllib.parse.quote on the ASCII fragment: percent-encode every
unsafe byte in uppercase hexadecimal. -/
def urlQuote (s : List Char) : List Char :=
  s.flatMap fun c =>
    if isUrlSafe c then [c]
    else ['%', hexDigitUpper (c.toNat / 16 % 16), hexDigitUpper (c.toNat % 16)]

/-- The query URL built at search_audiobooks.py lines 29-32. -/
def build_search_url (author : List Char) : List Char :=
  "https://westerncape.overdrive.com/search?query=".toList ++ urlQuote author
    ++ "&format=audiobook-overdrive%2Caudiobook-overdrive-provisional&sortBy=relevance".toList

/-- The dictionary returned by a successful search
(search_audiobooks.py lines 83-87). -/
structure SearchData where
  count : Nat
  books : List Book
  url : List Char
deriving Repr, DecidableEq

/-- search_audiobooks_for_author (search_audiobooks.py lines 15-94):
a transport failure is caught and returns None (lines 89-94); a
successful response is scraped into count, books and the attempted
URL. -/
def search_audiobooks_for_author (parsePage : List Char → Nat × List Book)
    (author : List Char) (resp : Except Unit (List Char)) : Option SearchData :=
  match resp with
  | .error _ => none
  | .ok html =>
    let pr := parsePage html
    some { count := pr.1, books := pr.2, url := build_search_url author }

/-- The per-author body of search_authors (search_combined.py
lines 120-138): a present result is copied field by field; an absent
one records count 0, no books and an empty URL. -/
def search_authors_entry (parsePage : List Char → Nat × List Book)
    (author : List Char) (resp : Except Unit (List Char)) : AuthorData :=
  match search_audiobooks_for_author parsePage author resp with
  | some r => { count := r.count, books := r.books, url := r.url }
  | none => { count := 0, books := [], url := [] }


/-!
Helper lemmas shared by the claim theorems.
-/

theorem isPrefixOf_nil_left (l : List Char) : List.isPrefixOf [] l = true := by
  cases l <;> rfl

theorem containsSub_nil (s : List Char) : containsSub [] s = true := by
  rw [containsSub, List.any_eq_true]
  exact ⟨0, List.mem_range.mpr (Nat.succ_pos _), isPrefixOf_nil_left _⟩

theorem names_match_of_eq_or_sub (a b : List Char)
    (h : normalize_name a = normalize_name b
      ∨ containsSub (normalize_name a) (normalize_name b) = true
      ∨ containsSub (normalize_name b) (normalize_name a) = true) :
    names_match a b = true := by
  simp only [names_match]
  split_ifs with h1 h2
  · rfl
  · rfl
  · rcases h with h | h | h
    · exact absurd h h1
    · exact absurd (by simp [h]) h2
    · exact absurd (by simp [h]) h2

theorem filter_idem {α : Type} (p : α → Bool) (l : List α) :
    (l.filter p).filter p = l.filter p := by
  induction l with
  | nil => rfl
  | cons x xs ih => by_cases h : p x <;> simp [List.filter_cons, h, ih]

theorem fetch_availability_true_inv (resp : Except Unit (List Char))
    (h : (fetch_availability resp).1 = true) :
    0 < (fetch_availability resp).2.1
      ∨ ((fetch_availability resp).2.1 = 0 ∧ (fetch_availability resp).2.2.1 = 0) := by
  cases resp with
  | error e => simp [fetch_availability] at h
  | ok html =>
    simp only [fetch_availability, fetch_availability_body] at h ⊢
    rcases hA : searchIntField acLit html with _ | n <;>
      rcases hO : searchIntField ocLit html with _ | m <;>
      simp only [hA, hO] at h ⊢
    · rcases hB : searchBoolField iaLit html with _ | bv <;> simp [hB]
    · rcases hB : searchBoolField iaLit html with _ | bv <;> simp [hB]
    · rcases hB : searchBoolField iaLit html with _ | bv <;> simp [hB]
    · left; simpa using h

theorem mem_checkBooksInner (pages : List Char → Except Unit (List Char))
    (limit : Option Nat) (author : List Char) (r : AvailRecord) :
    ∀ (books : List Book) (checked : Nat) (acc : List AvailRecord),
      r ∈ (checkBooksInner pages limit author books checked acc).1 →
      r ∈ acc ∨ 0 < r.available_copies ∨ (r.available_copies = 0 ∧ r.owned_copies = 0) := by
  intro books
  induction books with
  | nil => intro checked acc hr; exact Or.inl hr
  | cons book rest ih =>
    intro checked acc hr
    simp only [checkBooksInner] at hr
    split at hr
    · exact Or.inl hr
    · rcases ih _ _ hr with hmem | hp
      · by_cases hav : (fetch_availability (pages book.id)).1 = true
        · rw [if_pos hav] at hmem
          rcases List.mem_append.mp hmem with hacc | hnew
          · exact Or.inl hacc
          · have := fetch_availability_true_inv (pages book.id) hav
            rcases List.mem_singleton.mp hnew with rfl
            exact Or.inr this
        · rw [if_neg hav] at hmem
          exact Or.inl hmem
      · exact Or.inr hp

theorem mem_checkAllAux (pages : List Char → Except Unit (List Char))
    (limit : Option Nat) (r : AvailRecord) :
    ∀ (books_data : List (List Char × AuthorData)) (checked : Nat) (acc : List AvailRecord),
      r ∈ checkAllAux pages limit books_data checked acc →
      r ∈ acc ∨ 0 < r.available_copies ∨ (r.available_copies = 0 ∧ r.owned_copies = 0) := by
  intro books_data
  induction books_data with
  | nil => intro checked acc hr; exact Or.inl hr
  | cons entry rest ih =>
    intro checked acc hr
    rcases entry with ⟨author, ad⟩
    simp only [checkAllAux] at hr
    split at hr
    · exact ih _ _ hr
    · split at hr
      · exact mem_checkBooksInner pages limit author r _ _ _ hr
      · rcases ih _ _ hr with hmem | hp
        · exact mem_checkBooksInner pages limit author r _ _ _ hmem
        · exact Or.inr hp

/-!
Claim theorems.
-/

/-- C1: for every pair of name strings at the default threshold 0.85,
names_match returns true if and only if the two names are equal after
normalization, or one normalized name is a substring of the other, or
the SequenceMatcher similarity ratio of the two normalized names is at
least the threshold. -/
theorem C1_names_match_iff (a b : List Char) :
    names_match a b = true ↔
      (normalize_name a = normalize_name b
        ∨ containsSub (normalize_name a) (normalize_name b) = true
        ∨ containsSub (normalize_name b) (normalize_name a) = true
        ∨ ratioGeDefault (normalize_name a) (normalize_name b) = true) := by
  constructor
  · intro h
    simp only [names_match] at h
    split_ifs at h with h1 h2
    · exact Or.inl h1
    · rcases Bool.or_eq_true_iff.mp h2 with hx | hx
      · exact Or.inr (Or.inl hx)
      · exact Or.inr (Or.inr (Or.inl hx))
    · exact Or.inr (Or.inr (Or.inr h))
  · intro h
    rcases h with h | h | h | h
    · exact names_match_of_eq_or_sub a b (Or.inl h)
    · exact names_match_of_eq_or_sub a b (Or.inr (Or.inl h))
    · exact names_match_of_eq_or_sub a b (Or.inr (Or.inr h))
    · simp only [names_match]
      split_ifs with h1 h2
      · rfl
      · rfl
      · exact h

/-- C2: the refinement of one author's search entry keeps exactly the
records whose author the Name Matcher accepts against the queried
author — a subsequence of the input records, each kept unmodified, none
fabricated — and records `filtered_count` as the input's reported count
minus the number of kept records. -/
theorem C2_refine_entry_spec (a : List Char) (d : AuthorData) :
    (refine_entry a d).books = d.books.filter (fun book => names_match a book.author)
    ∧ (refine_entry a d).books.Sublist d.books
    ∧ (refine_entry a d).count = (refine_entry a d).books.length
    ∧ (refine_entry a d).original_count = d.count
    ∧ (refine_entry a d).filtered_count
        = (d.count : Int) - ((refine_entry a d).books.length : Int) :=
  ⟨rfl, List.filter_sublist _, rfl, rfl, rfl⟩

/-- C3: when both copy counts are present in the page body, the
Availability Prober returns `(availableCopies > 0, availableCopies,
ownedCopies, description)`; when either count is absent and a boolean
availability flag is present, it returns that boolean with zero counts. -/
theorem C3_fetch_counts (html : List Char) (N M : Nat) (b : Bool) :
    (searchIntField acLit html = some N → searchIntField ocLit html = some M →
      fetch_availability (.ok html) = (decide (0 < N), N, M, extract_description html))
    ∧ ((searchIntField acLit html = none ∨ searchIntField ocLit html = none) →
      searchBoolField iaLit html = some b →
      fetch_availability (.ok html) = (b, 0, 0, extract_description html)) := by
  constructor
  · intro hA hO
    simp [fetch_availability, fetch_availability_body, hA, hO]
  · intro hAbs hB
    rcases hAbs with h | h
    · simp [fetch_availability, fetch_availability_body, h, hB]
    · rcases hA : searchIntField acLit html with _ | n <;>
        simp [fetch_availability, fetch_availability_body, h, hA, hB]

set_option maxRecDepth 100000 in
/-- Witness for C3 at the two concrete bodies from the spec: counts
present give `(true, 3, 5, ...)`; counts absent with a true flag give
`(true, 0, 0, ...)`. -/
theorem C3_witness :
    fetch_availability (.ok ("\"availableCopies\":3,\"ownedCopies\":5".toList))
      = (true, 3, 5, none)
    ∧ fetch_availability (.ok ("\"isAvailable\":true".toList)) = (true, 0, 0, none) := by
  constructor
  · exact ((C3_fetch_counts ("\"availableCopies\":3,\"ownedCopies\":5".toList) 3 5 true).1
      (by decide) (by decide)).trans (by decide)
  · exact ((C3_fetch_counts ("\"isAvailable\":true".toList) 0 0 true).2
      (Or.inl (by decide)) (by decide)).trans (by decide)

/-- C4 counterexample: on a transport failure the Search Resolver
returns None rather than a SearchResult, and the search stage records
an empty URL for the author, not the attempted query URL. -/
theorem C4_counterexample :
    search_audiobooks_for_author (fun _ => (0, [])) ("Jane Doe".toList) (.error ()) = none
    ∧ (search_authors_entry (fun _ => (0, [])) ("Jane Doe".toList) (.error ())).url = []
    ∧ build_search_url ("Jane Doe".toList) ≠ [] :=
  ⟨rfl, rfl, by decide⟩

/-- C4 as amended: on a transport failure the Search Resolver returns
the failure sentinel None (no exception reaches the caller), and the
calling search stage records for that author a result with count 0,
no records, and an empty URL. -/
theorem C4_amended (parsePage : List Char → Nat × List Book) (author : List Char) :
    search_audiobooks_for_author parsePage author (.error ()) = none
    ∧ search_authors_entry parsePage author (.error ())
        = { count := 0, books := [], url := [] } :=
  ⟨rfl, rfl⟩

set_option maxRecDepth 100000 in
/-- C5 counterexample: a page carrying no copy counts but a true
availability flag makes check_all_books emit a record with zero
available copies. -/
theorem C5_counterexample :
    check_all_books (fun _ => .ok ("\"isAvailable\":true".toList))
      [("A".toList,
        { count := 1,
          books := [{ title := "T".toList, author := "A".toList, id := "b1".toList,
                      available := false, formats := [] }],
          url := [] })] none
      = [{ title := "T".toList, author := "A".toList, id := "b1".toList,
           url := mediaUrl ("b1".toList), available_copies := 0, owned_copies := 0,
           formats := [], description := none }]
    ∧ ¬ (∀ r ∈ check_all_books (fun _ => .ok ("\"isAvailable\":true".toList))
      [("A".toList,
        { count := 1,
          books := [{ title := "T".toList, author := "A".toList, id := "b1".toList,
                      available := false, formats := [] }],
          url := [] })] none, 0 < r.available_copies) := by
  constructor
  · decide
  · decide

/-- C5 as amended: every record check_all_books emits was emitted with
a true availability evaluation, so it has a positive available-copies
count, or it came through the boolean-flag fallback and carries zero
available and zero owned copies. -/
theorem C5_amended (pages : List Char → Except Unit (List Char))
    (books_data : List (List Char × AuthorData)) (limit : Option Nat) (r : AvailRecord)
    (hr : r ∈ check_all_books pages books_data limit) :
    0 < r.available_copies ∨ (r.available_copies = 0 ∧ r.owned_copies = 0) := by
  rcases mem_checkAllAux pages limit r books_data 0 [] hr with hmem | hp
  · exact absurd hmem (List.not_mem_nil r)
  · exact hp

set_option maxRecDepth 100000 in
/-- Witness for C5 as amended at a concrete run: a page with counts 2
and 3 emits one record and the theorem yields its disjunction. -/
theorem C5_amended_witness :
    0 < (AvailRecord.mk ("T".toList) ("A".toList) ("b1".toList) (mediaUrl ("b1".toList))
          2 3 [] none).available_copies
    ∨ ((AvailRecord.mk ("T".toList) ("A".toList) ("b1".toList) (mediaUrl ("b1".toList))
          2 3 [] none).available_copies = 0
        ∧ (AvailRecord.mk ("T".toList) ("A".toList) ("b1".toList) (mediaUrl ("b1".toList))
          2 3 [] none).owned_copies = 0) :=
  C5_amended (fun _ => .ok ("\"availableCopies\":2,\"ownedCopies\":3".toList))
    [("A".toList,
      { count := 1,
        books := [{ title := "T".toList, author := "A".toList, id := "b1".toList,
                    available := false, formats := [] }],
        url := [] })] none
    (AvailRecord.mk ("T".toList) ("A".toList) ("b1".toList) (mediaUrl ("b1".toList))
      2 3 [] none)
    (by decide)

set_option maxRecDepth 100000 in
/-- C6 counterexample: names_match is not symmetric at the default
threshold — the SequenceMatcher decomposition depends on argument
order, giving ratio 12/14 one way and 8/14 the other for this pair. -/
theorem C6_counterexample :
    names_match ("aaaaaba".toList) ("aabaaab".toList) = true
    ∧ names_match ("aabaaab".toList) ("aaaaaba".toList) = false := by
  constructor
  · decide
  · decide

/-- C6 as amended: names_match is symmetric whenever the normalized
names are equal or one contains the other (both sides then return
true); the remaining similarity-ratio stage is order-sensitive, so full
symmetry fails in general. -/
theorem C6_amended (a b : List Char)
    (h : normalize_name a = normalize_name b
      ∨ containsSub (normalize_name a) (normalize_name b) = true
      ∨ containsSub (normalize_name b) (normalize_name a) = true) :
    names_match a b = names_match b a := by
  have hab := names_match_of_eq_or_sub a b h
  have hba := names_match_of_eq_or_sub b a (by tauto)
  rw [hab, hba]

/-- Witness for C6 as amended at the spec's own example pair, whose
normalizations coincide. -/
theorem C6_amended_witness :
    names_match ("A.S. Byatt".toList) ("AS Byatt".toList)
      = names_match ("AS Byatt".toList) ("A.S. Byatt".toList) :=
  C6_amended ("A.S. Byatt".toList) ("AS Byatt".toList) (Or.inl (by decide))

/-- C7: a transport failure of the detail-page fetch yields the fully
absent fragment — not available, zero counts, no description — and, the
embedding being total, no exception propagates. -/
theorem C7_transport_failure :
    fetch_availability (.error ()) = (false, 0, 0, none) := rfl

set_option maxRecDepth 100000 in
/-- C8 counterexample: when the embedded-object candidate begins with a
category-code prefix and no article block exists, the rejected
candidate itself is returned, so the returned description can begin
with such a prefix. -/
theorem C8_counterexample :
    fetch_availability (.ok (("window.OverDrive.titleCollection = \x7b\"publisher\":\x7b\"name\":\"P\"\x7d,\"description\":\"FICTION General\",\"x\":1\x7d \"availableCopies\":1,\"ownedCopies\":1").toList))
      = (true, 1, 1, some ("FICTION General".toList))
    ∧ startsWithBisac ("FICTION General".toList) = true := by
  constructor
  · decide
  · decide

/-- C8 as amended: a candidate description beginning with a
category-code prefix is rejected and the extractor falls through to the
tagged-markup-block strategy — when an article block is present its
cleaned content replaces the candidate, and when none is present the
rejected candidate is still returned. -/
theorem C8_amended (html : List Char) (d : List Char)
    (hc : findDescriptionCandidate html = some d)
    (hb : startsWithBisac d = true) :
    (∀ inner, articleBlock html = some inner →
      extract_description html = some (clean_html_description inner))
    ∧ (articleBlock html = none → extract_description html = some d) := by
  have hrej : descRejected (some d) = true := by
    simp [descRejected, hb]
  constructor
  · intro inner hart
    simp [extract_description, hc, hrej, hart]
  · intro hart
    simp [extract_description, hc, hrej, hart]

set_option maxRecDepth 100000 in
/-- Witness for C8 as amended: the same category-coded candidate with
an article block present resolves to the cleaned block content. -/
theorem C8_amended_witness :
    extract_description (("window.OverDrive.titleCollection = \x7b\"publisher\":\x7b\"name\":\"P\"\x7d,\"description\":\"FICTION General\",\"x\":1\x7d<article class=\"TitleDetailsDescription-description\">Real prose.</article>").toList)
      = some (clean_html_description ("Real prose.".toList)) :=
  (C8_amended _ ("FICTION General".toList) (by decide) (by decide)).1
    ("Real prose.".toList) (by decide)

/-- C9: re-refining a refined entry (through the clean projection that
save_refined_results writes) removes nothing: the record list is
unchanged and filtered_count is zero. -/
theorem C9_refine_idempotent (a : List Char) (d : AuthorData) :
    refine_entry a (save_clean (refine_entry a d)) =
      { count := (refine_entry a d).count
        books := (refine_entry a d).books
        url := (refine_entry a d).url
        original_count := (refine_entry a d).count
        filtered_count := 0 } := by
  simp only [refine_entry, save_clean, RefinedData.mk.injEq]
  rw [filter_idem]
  simp

/-- C10: a query whose normalization is empty matches every candidate,
and every query matches a candidate whose normalization is empty,
through the substring-containment stage. -/
theorem C10_empty_query_matches_all (q b : List Char)
    (h : normalize_name q = []) :
    names_match q b = true ∧ names_match b q = true :=
  ⟨names_match_of_eq_or_sub q b
      (Or.inr (Or.inl (by rw [h]; exact containsSub_nil _))),
    names_match_of_eq_or_sub b q
      (Or.inr (Or.inr (by rw [h]; exact containsSub_nil _)))⟩

/-- Witness for C10 at a punctuation-only query. -/
theorem C10_witness :
    names_match ("!!!".toList) ("Bob".toList) = true
    ∧ names_match ("Bob".toList) ("!!!".toList) = true :=
  C10_empty_query_matches_all ("!!!".toList) ("Bob".toList) (by decide)
